import Mathlib

/-
Verification development for the llama bridge (llm_bridge.cpp).

Shallow embedding conventions:
- C strings (const char pointers) are modelled as Option (List Char);
  none is a null pointer, some [] the empty string.
- C double is modelled as Rat. The numeric literals appearing in the
  properties below (5, 9, 40, 128, 0, 3) are exactly representable as
  doubles, so the rational model agrees with the C value on every input
  the theorems touch. atof is modelled in its C-locale decimal form
  (whitespace, sign, digits, fraction, exponent); hexadecimal and
  inf/nan forms are not modelled, and no input below uses them.
- The llama engine (llama.h) is an external black box; it is modelled
  as a structure of oracle functions over an abstract session state.
- Machine ints are modelled as Int; none of the quantities involved
  (buffer sizes, token counts, status codes) approach overflow in the
  properties considered.
-/

/-- Models the C (default locale) isspace predicate used by atof. -/
def isSpaceC (c : Char) : Bool :=
  c == ' ' || c == '\t' || c == '\n' || c == '\x0b' || c == '\x0c' || c == '\r'

/-- Reads a maximal run of decimal digits: returns the value read, the
number of digits, and the remaining characters. -/
def parseDigits (s : List Char) : Nat × Nat × List Char :=
  let ds := s.takeWhile (fun c => c.isDigit)
  (ds.foldl (fun a c => 10 * a + (c.toNat - 48)) 0, ds.length,
   s.dropWhile (fun c => c.isDigit))

/-- Models C atof (strtod, decimal forms): optional whitespace, optional
sign, digits with optional fraction and exponent; yields 0 when no digits
can be read. Total: it never fails. The value sign times (integer part
point fraction part) times ten to the exponent is produced exactly, as a
normalized rational built from integer arithmetic. -/
def atof (s : List Char) : Rat :=
  let s1 := s.dropWhile (fun c => isSpaceC c)
  let sgns : Int × List Char :=
    match s1 with
    | '-' :: t => (-1, t)
    | '+' :: t => (1, t)
    | _ => (1, s1)
  let ipart := parseDigits sgns.2
  let fpart : Nat × Nat × List Char :=
    match ipart.2.2 with
    | '.' :: t => parseDigits t
    | _ => (0, 0, ipart.2.2)
  if ipart.2.1 + fpart.2.1 = 0 then 0
  else
    let ex : Int :=
      match fpart.2.2 with
      | c :: t =>
        if c == 'e' || c == 'E' then
          let esgns : Int × List Char :=
            match t with
            | '-' :: u => (-1, u)
            | '+' :: u => (1, u)
            | _ => (1, t)
          let epart := parseDigits esgns.2
          if epart.2.1 = 0 then 0 else esgns.1 * (epart.1 : Int)
        else 0
      | [] => 0
    let mantNum : Int := sgns.1 * ((ipart.1 * 10 ^ fpart.2.1 + fpart.1 : Nat) : Int)
    if 0 ≤ ex then mkRat (mantNum * 10 ^ ex.toNat) (10 ^ fpart.2.1)
    else mkRat mantNum (10 ^ fpart.2.1 * 10 ^ (-ex).toNat)

/-- Models C strstr: the suffix of the haystack starting at the first
occurrence of the pattern, or none when the pattern does not occur. -/
def strstr (pat : List Char) : List Char → Option (List Char)
  | [] => if pat.isPrefixOf ([] : List Char) then some [] else none
  | c :: t => if pat.isPrefixOf (c :: t) then some (c :: t) else strstr pat t

/-- Models C strchr: the suffix starting at the first occurrence of the
character, or none. -/
def strchr : List Char → Char → Option (List Char)
  | [], _ => none
  | c :: t, x => if c = x then some (c :: t) else strchr t x

/-- Embeds jgetd (llm_bridge.cpp lines 33 to 41): null json or key gives
the default; otherwise scan for the quoted key, then the first colon from
there, then atof of what follows the colon; the default is returned when
the quoted key or the colon is not found. -/
def jgetd (json key : Option (List Char)) (defv : Rat) : Rat :=
  match json, key with
  | some j, some k =>
    let pat : List Char := '\"' :: (k ++ ['\"'])
    match strstr pat j with
    | none => defv
    | some p =>
      match strchr p ':' with
      | none => defv
      | some q => atof (q.drop 1)
  | _, _ => defv

/-- Truncation of a rational toward zero, modelling the C double to int
cast in jgeti. -/
def ratTrunc (q : Rat) : Int :=
  if q < 0 then -(((-q).num.toNat / (-q).den : Nat) : Int)
  else ((q.num.toNat / q.den : Nat) : Int)

/-- Embeds jgeti (llm_bridge.cpp lines 42 to 44). -/
def jgeti (json key : Option (List Char)) (defi : Int) : Int :=
  ratTrunc (jgetd json key (defi : Rat))

/-- The literal key name used by llm_infer. -/
def max_tokens_key : List Char := "max_tokens".toList

/-- Embeds the max_tokens resolution of llm_infer line 132: a null params
text short-circuits to 128 without calling jgeti. -/
def resolved_max_tokens (paramsJson : Option (List Char)) : Int :=
  match paramsJson with
  | some j => jgeti (some j) (some max_tokens_key) 128
  | none => 128

/-- The llama engine as an abstract oracle over a session state sigma.
tokenize models tok_prompt (text, add_special, parse_special); decode
models decode_tokens, with none marking a llama_decode failure and some
the advanced session; logits models llama_get_logits at the current
state, with its length equal to llama_vocab_n_tokens per the llama
contract; eos models llama_vocab_eos; piece models the fragment that
append_piece appends for a token. The n_past counter of the source is
incremented but never otherwise read, so it is not modelled. -/
structure LlamaApi (σ : Type) where
  tokenize : List Char → Bool → Bool → List Int
  decode : σ → List Int → Option σ
  logits : σ → List Rat
  eos : Int
  piece : Int → List Char

/-- Observable outcome of llm_infer: the returned status, the content
bytes written into outBuf (none when the buffer is never written), the
index at which the terminator byte is written (none when it is not), an
instrumentation flag recording whether tok_prompt ran, and the number of
sampling-loop iterations entered. -/
structure InferResult where
  status : Int
  buf : Option (List Char)
  nulIdx : Option Nat
  tokenized : Bool
  steps : Nat
  deriving DecidableEq

/-- Embeds the greedy arg-max scan of llm_infer lines 153 to 159: best_id
starts at 0, best_v at -1e30, and a strictly-greater comparison walks the
scores in index order, so ties keep the lowest index. -/
def greedy_pick (logits : List Rat) : Int :=
  (logits.enum.foldl
    (fun best tv => if tv.2 > best.2 then ((tv.1 : Int), tv.2) else best)
    ((0 : Int), mkRat (-1000000000000000000000000000000) 1)).1

/-- Embeds the sampling loop of llm_infer lines 149 to 171, with fuel the
loop bound max_tokens. Returns the accumulated text and the number of
iterations entered. An iteration picks the greedy token; breaks on eos or
-1; appends its piece; breaks when the accumulated length reaches
outBufSize - 1; evaluates the token and breaks (successfully) when that
evaluation fails. -/
def infer_loop {σ : Type} (O : LlamaApi σ) (outBufSize : Int) :
    Nat → σ → List Char → List Char × Nat
  | 0, _, acc => (acc, 0)
  | fuel + 1, s, acc =>
    let tok : Int := greedy_pick (O.logits s)
    if tok = O.eos ∨ tok = -1 then (acc, 1)
    else
      let acc2 := acc ++ O.piece tok
      if (acc2.length : Int) ≥ outBufSize - 1 then (acc2, 1)
      else
        match O.decode s [tok] with
        | none => (acc2, 1)
        | some s2 =>
          let r := infer_loop O outBufSize fuel s2 acc2
          (r.1, r.2 + 1)

/-- Embeds the tail of llm_infer (lines 146 to 176) run after a
successful or skipped prompt evaluation: run the loop from state s1 with
an empty accumulator, then copy min(result size, outBufSize - 1) bytes
and write the terminator right after them, returning status 0. -/
def infer_finish {σ : Type} (O : LlamaApi σ) (outBufSize : Int)
    (maxToks : Nat) (s1 : σ) : InferResult :=
  let r := infer_loop O outBufSize maxToks s1 []
  let n : Nat := min r.1.length (outBufSize - 1).toNat
  ⟨0, some (r.1.take n), some n, true, r.2⟩

/-- Embeds llm_infer (llm_bridge.cpp lines 126 to 177). ctx is the
global g_ctx (none when not initialized), carrying the abstract session
state; outBufNull models a null outBuf pointer. Checks run in source
order: missing context gives -10; a null or too-small buffer gives -30;
then max_tokens is resolved and the prompt (null treated as empty) is
tokenized; a nonempty token sequence is evaluated in one batch, a
failure there returning -20 with nothing written; otherwise the loop and
the bounded copy produce status 0. -/
def llm_infer {σ : Type} (O : LlamaApi σ) (ctx : Option σ)
    (prompt paramsJson : Option (List Char))
    (outBufNull : Bool) (outBufSize : Int) : InferResult :=
  match ctx with
  | none => ⟨-10, none, none, false, 0⟩
  | some s =>
    if outBufNull = true ∨ outBufSize ≤ 1 then ⟨-30, none, none, false, 0⟩
    else
      let toks := O.tokenize (prompt.getD []) true true
      if toks = [] then
        infer_finish O outBufSize (resolved_max_tokens paramsJson).toNat s
      else
        match O.decode s toks with
        | none => ⟨-20, none, none, true, 0⟩
        | some s1 =>
          infer_finish O outBufSize (resolved_max_tokens paramsJson).toNat s1

/-- Model parameters set by llm_init lines 101 to 104; the remaining
llama defaults are opaque and supplied by the world below. -/
structure ModelParams where
  n_gpu_layers : Int
  use_mmap : Bool
  use_mlock : Bool
  deriving DecidableEq

/-- Context parameters set by llm_init lines 109 to 112. -/
structure CtxParams where
  n_ctx : Int
  n_batch : Int
  n_threads : Int
  deriving DecidableEq

/-- The llama loading layer as an abstract world: default parameter
records and the two fallible constructors, llama_model_load_from_file
and llama_init_from_model, with none marking failure. -/
structure LlamaWorld (μ κ : Type) where
  modelDefaults : ModelParams
  ctxDefaults : CtxParams
  loadModel : List Char → ModelParams → Option μ
  initCtx : μ → CtxParams → Option κ

/-- The bridge globals g_model, g_ctx, g_threads (llm_bridge.cpp lines
28 to 30). -/
structure BridgeState (μ κ : Type) where
  model : Option μ
  ctx : Option κ
  threads : Int
  deriving DecidableEq

/-- The globals at process start: both pointers null, g_threads = 4. -/
def initial_bridge (μ κ : Type) : BridgeState μ κ :=
  ⟨none, none, 4⟩

/-- Embeds llm_init (llm_bridge.cpp lines 93 to 124): an existing
context short-circuits to 0 before any other check; a null or empty path
gives -3; a model load failure gives -1 with g_model left null; a
context creation failure frees the model and gives -2, g_threads having
already been updated; on success both globals are installed and 0 is
returned. The seed parameter is ignored as in the source. -/
def llm_init {μ κ : Type} (W : LlamaWorld μ κ) (st : BridgeState μ κ)
    (modelPath : Option (List Char)) (n_ctx n_gpu_layers n_threads seed : Int) :
    Int × BridgeState μ κ :=
  if st.ctx.isSome then (0, st)
  else if modelPath = none ∨ modelPath = some [] then (-3, st)
  else
    let mparams : ModelParams :=
      { W.modelDefaults with
        n_gpu_layers := n_gpu_layers, use_mmap := true, use_mlock := false }
    match W.loadModel (modelPath.getD []) mparams with
    | none => (-1, { st with model := none })
    | some m =>
      let cparams : CtxParams :=
        { W.ctxDefaults with
          n_ctx := if n_ctx > 0 then n_ctx else 2048
          n_batch := 256
          n_threads := if n_threads > 0 then n_threads else 4 }
      match W.initCtx m cparams with
      | none => (-2, { st with model := none, threads := cparams.n_threads })
      | some c => (0, { model := some m, ctx := some c, threads := cparams.n_threads })

/-- Embeds llm_dispose (lines 179 to 186): frees context then model and
nulls both globals; g_threads is untouched; always safe. The
llama_backend_free call touches no bridge state and is not modelled. -/
def llm_dispose {μ κ : Type} (st : BridgeState μ κ) : BridgeState μ κ :=
  { st with ctx := none, model := none }

/-- One exported call of the bridge, with the arguments that can affect
the global state. -/
inductive BridgeCall where
  | init (modelPath : Option (List Char)) (n_ctx n_gpu_layers n_threads seed : Int)
  | infer (prompt paramsJson : Option (List Char)) (outBufNull : Bool) (outBufSize : Int)
  | dispose

/-- Effect of one exported call on the bridge globals. llm_infer contains
no assignment to g_model or g_ctx (lines 126 to 177), so an infer call
leaves the global state unchanged. -/
def bridgeStep {μ κ : Type} (W : LlamaWorld μ κ) (call : BridgeCall)
    (st : BridgeState μ κ) : BridgeState μ κ :=
  match call with
  | .init mp a b c d => (llm_init W st mp a b c d).2
  | .infer _ _ _ _ => st
  | .dispose => llm_dispose st

/-- The model pointer and the context pointer are both set or both null. -/
def engineInv {μ κ : Type} (st : BridgeState μ κ) : Prop :=
  st.model.isSome = st.ctx.isSome

/-- Demo oracle for concrete runs: the session state counts decoded
tokens, every decode succeeds, token 1 always has the highest score, its
piece is one byte, and the empty text tokenizes to nothing. -/
def demoApi : LlamaApi Nat where
  tokenize := fun p _ _ => if p = [] then ([] : List Int) else [1]
  decode := fun s ts => some (s + ts.length)
  logits := fun _ => [0, 1]
  eos := 9
  piece := fun _ => ['a']

/-- Oracle whose decode always fails, for exercising the evaluation
failure paths. -/
def failApi : LlamaApi Nat where
  tokenize := fun _ _ _ => [1]
  decode := fun _ _ => none
  logits := fun _ => [0, 1]
  eos := 9
  piece := fun _ => ['a']

/-- Oracle that decodes the prompt but fails on every single-token step
evaluation, for the mid-loop failure path. -/
def stepFailApi : LlamaApi Nat where
  tokenize := fun _ _ _ => [1, 1]
  decode := fun s ts => if ts.length = 1 then none else some (s + ts.length)
  logits := fun _ => [0, 1]
  eos := 9
  piece := fun _ => ['a']

/-- Trivial world for concrete lifecycle runs. -/
def trivWorld : LlamaWorld Unit Unit where
  modelDefaults := ⟨0, false, false⟩
  ctxDefaults := ⟨0, 0, 0⟩
  loadModel := fun _ _ => some ()
  initCtx := fun _ _ => some ()

/-- A state in which an Engine is installed. -/
def engineSt : BridgeState Unit Unit := ⟨some (), some (), 4⟩

/-- Sample config texts used in the concrete theorems below. -/
def foo_json : List Char := "\x7b\"foo_top_k\":5\x7d".toList

def plain_json : List Char := "\x7b\"top_k\":5\x7d".toList

def collide_json : List Char := "\x7b\"note\":\"top_k\",\"other\":9\x7d".toList

def junk_json : List Char := "\x7b\"top_k\":x\x7d".toList

def mt0_json : List Char := "\x7b\"max_tokens\":0\x7d".toList

def mt3_json : List Char := "\x7b\"max_tokens\":3\x7d".toList

def top_k_key : List Char := "top_k".toList

example : atof ("5" ++ "x").toList = 5 := by decide
example : atof "x".toList = 0 := by decide
example : atof "-2.5".toList = mkRat (-5) 2 := by decide
example : atof " 12.5e-1".toList = mkRat 5 4 := by decide
example : jgetd (some "\x7b\"foo_top_k\":5\x7d".toList) (some "top_k".toList) 40 = 40 := by decide
example : jgetd (some "\x7b\"top_k\":5\x7d".toList) (some "top_k".toList) 40 = 5 := by decide
example : resolved_max_tokens (some "\x7b\"max_tokens\":0\x7d".toList) = 0 := by decide
example : resolved_max_tokens none = 128 := by decide
example : llm_infer demoApi (some 0) (some ['h']) (some mt3_json) false 10 =
    ⟨0, some ['a', 'a', 'a'], some 3, true, 3⟩ := by decide
example : llm_infer failApi (some 0) (some ['h']) (some mt3_json) false 10 =
    ⟨-20, none, none, true, 0⟩ := by decide
example : llm_infer stepFailApi (some 0) (some ['h']) (some mt3_json) false 10 =
    ⟨0, some ['a'], some 1, true, 1⟩ := by decide
example : llm_infer demoApi (some 0) (some ['h']) (some mt0_json) false 10 =
    ⟨0, some [], some 0, true, 0⟩ := by decide
example : llm_infer demoApi (some 0) (some ['h']) none false 4 =
    ⟨0, some ['a', 'a', 'a'], some 3, true, 3⟩ := by decide
example : llm_infer demoApi (none : Option Nat) none none true 0 =
    ⟨-10, none, none, false, 0⟩ := by decide
example : llm_infer demoApi (some 0) none none true 7 =
    ⟨-30, none, none, false, 0⟩ := by decide
example : llm_init trivWorld engineSt none 0 0 0 0 = (0, engineSt) := by decide
example : llm_init trivWorld (initial_bridge Unit Unit) none 0 0 0 0 =
    (-3, initial_bridge Unit Unit) := by decide
example : llm_init trivWorld (initial_bridge Unit Unit) (some ['m']) 0 0 0 0 =
    (0, ⟨some (), some (), 4⟩) := by decide

/-- The strstr scan fails exactly when the pattern occurs nowhere in the
haystack, that is, when the pattern is not an infix of it. -/
theorem strstr_eq_none_iff (pat : List Char) (h : List Char) :
    strstr pat h = none ↔ ¬ pat <:+: h := by
  induction h with
  | nil =>
    simp only [strstr]
    by_cases hp : pat.isPrefixOf ([] : List Char)
    · rw [if_pos hp]
      simp [( List.isPrefixOf_iff_prefix.mp hp).isInfix]
    · rw [if_neg hp]
      rw [ List.isPrefixOf_iff_prefix] at hp
      simp only [List.infix_nil, List.prefix_nil] at *
      simpa using hp
  | cons c t ih =>
    simp only [strstr]
    by_cases hp : pat.isPrefixOf (c :: t)
    · rw [if_pos hp]
      simp [( List.isPrefixOf_iff_prefix.mp hp).isInfix]
    · rw [if_neg hp]
      rw [ List.isPrefixOf_iff_prefix] at hp
      rw [ih, List.infix_cons_iff]
      constructor
      · intro hni hor
        rcases hor with hpre | hinf
        · exact hp hpre
        · exact hni hinf
      · intro hno hinf
        exact hno (Or.inr hinf)

/-- The sampling loop enters at most fuel iterations. -/
theorem infer_loop_steps_le {σ : Type} (O : LlamaApi σ) (C : Int) :
    ∀ (fuel : Nat) (s : σ) (acc : List Char),
      (infer_loop O C fuel s acc).2 ≤ fuel := by
  intro fuel
  induction fuel with
  | zero => intro s acc; simp [infer_loop]
  | succ n ih =>
    intro s acc
    simp only [infer_loop]
    split
    · simp
    · split
      · simp
      · split
        · simp
        · simpa using Nat.succ_le_succ (ih _ _)

/-- A state whose context is installed makes llm_init an immediate no-op
returning 0. -/
theorem llm_init_noop {μ κ : Type} (W : LlamaWorld μ κ) (st : BridgeState μ κ)
    (mp : Option (List Char)) (a b c d : Int) (h : st.ctx.isSome = true) :
    llm_init W st mp a b c d = (0, st) := by
  simp [llm_init, h]

/-- C1: the claim reads the key scan as matching the bare key substring,
predicting that extracting top_k with default 40 from the foo_top_k text
yields 5; the scan in fact matches the key wrapped in quote characters,
which does not occur there, so the default 40 is returned, not 5. -/
theorem c1_bare_substring_counterexample :
    jgetd (some foo_json) (some top_k_key) 40 ≠ 5 := by decide

/-- C1 (amended): the key scan matches the quoted key (a quote character,
the key, a quote character) as a bare substring anywhere in the input, so
extracting top_k with default 40 from the foo_top_k text yields the
default 40, from the plain text yields 5, and the first-occurrence
collision remains reproducible when the quoted key occurs inside an
unrelated string value: the collide text, whose only quoted top_k sits in
the value of note, yields 9, the number after the next colon. -/
theorem c1_quoted_key_scan :
    jgetd (some foo_json) (some top_k_key) 40 = 40 ∧
    jgetd (some plain_json) (some top_k_key) 40 = 5 ∧
    jgetd (some collide_json) (some top_k_key) 40 = 9 := by
  exact ⟨by decide, by decide, by decide⟩

/-- C4: the claim predicts that a null model path fails with -3
regardless of any other state; but when an Engine is already installed
the idempotency check runs first and the call returns 0, not -3. -/
theorem c4_invalid_path_counterexample :
    (llm_init trivWorld engineSt none 0 0 0 0).1 = 0 ∧ ((0 : Int) ≠ -3) := by
  decide

/-- C4 (amended): when no Engine exists, every call to init with an empty
or null model_path fails with status -3 and leaves the state unchanged;
when an Engine already exists the call returns 0 without inspecting the
path. -/
theorem c4_invalid_path {μ κ : Type} (W : LlamaWorld μ κ) (st : BridgeState μ κ)
    (mp : Option (List Char)) (a b c d : Int)
    (hctx : st.ctx = none) (hmp : mp = none ∨ mp = some []) :
    llm_init W st mp a b c d = (-3, st) := by
  simp [llm_init, hctx, hmp]

/-- C4 witness: the amended statement evaluated at the initial state with
a null path. -/
theorem c4_invalid_path_witness :
    llm_init trivWorld (initial_bridge Unit Unit) none 0 0 0 0 =
      (-3, initial_bridge Unit Unit) :=
  c4_invalid_path trivWorld (initial_bridge Unit Unit) none 0 0 0 0 rfl (Or.inl rfl)

/-- C5: the claim predicts that a null or too-small output target always
yields -30; but the missing-engine check runs first, so with no context
installed such a call returns -10, not -30. -/
theorem c5_bad_buffer_counterexample :
    (llm_infer demoApi (none : Option Nat) none none true 0).status = -10 ∧
    ((-10 : Int) ≠ -30) := by decide

/-- C5 (amended): with an Engine present, every generate call whose
output target is null or of capacity at most 1 returns -30, writes
nothing, and performs no tokenization; without an Engine the call
returns -10 instead, the engine check preceding the buffer check. -/
theorem c5_bad_buffer {σ : Type} (O : LlamaApi σ) (s : σ)
    (prompt paramsJson : Option (List Char)) (outBufNull : Bool) (C : Int)
    (h : outBufNull = true ∨ C ≤ 1) :
    llm_infer O (some s) prompt paramsJson outBufNull C =
      ⟨-30, none, none, false, 0⟩ := by
  simp only [llm_infer]
  rw [if_pos h]

/-- C5 witness: a null output target with an Engine installed. -/
theorem c5_bad_buffer_witness :
    llm_infer demoApi (some 0) none none true 7 = ⟨-30, none, none, false, 0⟩ :=
  c5_bad_buffer demoApi 0 none none true 7 (Or.inl rfl)

/-- C6: the claim predicts the default is returned whenever parsing of
the numeric literal after the colon fails; in fact when the quoted key
and a colon are found but no number follows, atof yields 0, so the call
returns 0 rather than the default 40. -/
theorem c6_default_on_failure_counterexample :
    jgetd (some junk_json) (some top_k_key) 40 = 0 ∧ ((0 : Rat) ≠ 40) := by
  decide

/-- C6 (amended): the extractor is total, never raising an error, and
returns the caller-supplied default when the text is null, the key is
null, the quoted key occurs nowhere in the text, or no colon follows the
first occurrence of the quoted key; when the quoted key and a colon are
found, it returns the atof value of the text after the colon, which is 0
rather than the default when no numeric literal can be read there. -/
theorem c6_lenient_defaults (j k : List Char) (d : Rat) :
    jgetd none (some k) d = d ∧
    jgetd (some j) none d = d ∧
    jgetd none none d = d ∧
    (¬ ('\"' :: (k ++ ['\"'])) <:+: j → jgetd (some j) (some k) d = d) ∧
    (∀ p, strstr ('\"' :: (k ++ ['\"'])) j = some p → strchr p ':' = none →
      jgetd (some j) (some k) d = d) ∧
    (∀ p q, strstr ('\"' :: (k ++ ['\"'])) j = some p → strchr p ':' = some q →
      jgetd (some j) (some k) d = atof (q.drop 1)) := by
  refine ⟨rfl, rfl, rfl, ?_, ?_, ?_⟩
  · intro hni
    have hs : strstr ('\"' :: (k ++ ['\"'])) j = none :=
      (strstr_eq_none_iff _ _).mpr hni
    simp [jgetd, hs]
  · intro p hs hc
    simp [jgetd, hs, hc]
  · intro p q hs hc
    simp [jgetd, hs, hc]

/-- C6 witness: the amended statement evaluated on a text not containing
the quoted key. -/
theorem c6_lenient_defaults_witness :
    jgetd (some ['x']) (some top_k_key) 40 = 40 :=
  (c6_lenient_defaults ['x'] top_k_key 40).2.2.2.1 (by decide)

/-- Every run of llm_init either returns 0 with a context installed in
the resulting state, or returns a nonzero status. -/
theorem llm_init_zero_ctx {μ κ : Type} (W : LlamaWorld μ κ) (st : BridgeState μ κ)
    (mp : Option (List Char)) (a b c d : Int) :
    ((llm_init W st mp a b c d).1 = 0 ∧
      (llm_init W st mp a b c d).2.ctx.isSome = true) ∨
    (llm_init W st mp a b c d).1 ≠ 0 := by
  by_cases hc : st.ctx.isSome = true
  · rw [llm_init_noop W st mp a b c d hc]
    exact Or.inl ⟨rfl, hc⟩
  · by_cases hp : mp = none ∨ mp = some []
    · have heq : llm_init W st mp a b c d = (-3, st) := by
        simp [llm_init, hc, hp]
      rw [heq]
      right
      show (-3 : Int) ≠ 0
      decide
    · cases hm : W.loadModel (mp.getD []) ⟨b, true, false⟩ with
      | none =>
        have heq : llm_init W st mp a b c d = (-1, { st with model := none }) := by
          simp only [llm_init, hm]
          rw [if_neg hc, if_neg hp]
        rw [heq]
        right
        show (-1 : Int) ≠ 0
        decide
      | some m =>
        cases hn : W.initCtx m ⟨if a > 0 then a else 2048, 256,
            if c > 0 then c else 4⟩ with
        | none =>
          have heq : llm_init W st mp a b c d =
              (-2, { st with model := none, threads := (if c > 0 then c else 4) }) := by
            simp only [llm_init, hm, hn]
            rw [if_neg hc, if_neg hp]
          rw [heq]
          right
          show (-2 : Int) ≠ 0
          decide
        | some cx =>
          have heq : llm_init W st mp a b c d =
              (0, ⟨some m, some cx, (if c > 0 then c else 4)⟩) := by
            simp only [llm_init, hm, hn]
            rw [if_neg hc, if_neg hp]
          rw [heq]
          exact Or.inl ⟨rfl, rfl⟩

/-- The finishing write of llm_infer always hands back a buffer of at
most outBufSize - 1 content bytes with the terminator right after it. -/
theorem infer_finish_bounds {σ : Type} (O : LlamaApi σ) (C : Int) (m : Nat)
    (s : σ) (hC : 2 ≤ C) :
    ∃ content n, (infer_finish O C m s).buf = some content ∧
      (infer_finish O C m s).nulIdx = some n ∧
      content.length = n ∧ (n : Int) ≤ C - 1 := by
  refine ⟨_, _, rfl, rfl, ?_, ?_⟩
  · simp only [infer_finish, List.length_take]
    exact Nat.min_eq_left (Nat.min_le_left _ _)
  · have h1 := Nat.min_le_right (infer_loop O C m s []).1.length (C - 1).toNat
    omega

/-- C2: error handling is asymmetric by phase. A failed evaluation of a
nonempty prompt aborts with -20 and writes nothing. A failed evaluation
of the single selected token mid-loop (token not eos, capacity not yet
reached) stops the loop, keeping the output accumulated so far; and any
call that gets past the prompt phase returns status 0 with the buffer
written, whatever the step evaluations do. -/
theorem c2_phase_asymmetry {σ : Type} (O : LlamaApi σ) (s : σ)
    (prompt paramsJson : Option (List Char)) (C : Int) (hC : 2 ≤ C) :
    (O.tokenize (prompt.getD []) true true ≠ [] →
      O.decode s (O.tokenize (prompt.getD []) true true) = none →
      llm_infer O (some s) prompt paramsJson false C =
        ⟨-20, none, none, true, 0⟩) ∧
    (∀ (fuel : Nat) (s2 : σ) (acc : List Char),
      greedy_pick (O.logits s2) ≠ O.eos →
      greedy_pick (O.logits s2) ≠ -1 →
      ((acc ++ O.piece (greedy_pick (O.logits s2))).length : Int) < C - 1 →
      O.decode s2 [greedy_pick (O.logits s2)] = none →
      infer_loop O C (fuel + 1) s2 acc =
        (acc ++ O.piece (greedy_pick (O.logits s2)), 1)) ∧
    ((O.tokenize (prompt.getD []) true true = [] ∨
        O.decode s (O.tokenize (prompt.getD []) true true) ≠ none) →
      (llm_infer O (some s) prompt paramsJson false C).status = 0 ∧
      (llm_infer O (some s) prompt paramsJson false C).buf ≠ none) := by
  have hB : ¬(false = true ∨ C ≤ 1) := by simp; omega
  refine ⟨?_, ?_, ?_⟩
  · intro hne hfail
    simp only [llm_infer]
    rw [if_neg hB, if_neg hne, hfail]
  · intro fuel s2 acc h1 h2 h3 h4
    simp only [infer_loop]
    rw [if_neg (not_or.mpr ⟨h1, h2⟩), if_neg (not_le.mpr h3), h4]
  · intro hor
    by_cases ht : O.tokenize (prompt.getD []) true true = []
    · have heq : llm_infer O (some s) prompt paramsJson false C =
          infer_finish O C (resolved_max_tokens paramsJson).toNat s := by
        simp only [llm_infer]
        rw [if_neg hB, if_pos ht]
      rw [heq]
      exact ⟨rfl, by simp [infer_finish]⟩
    · have hd : O.decode s (O.tokenize (prompt.getD []) true true) ≠ none := by
        rcases hor with h | h
        · exact absurd h ht
        · exact h
      rcases Option.ne_none_iff_exists.mp hd with ⟨s1, hs1⟩
      have heq : llm_infer O (some s) prompt paramsJson false C =
          infer_finish O C (resolved_max_tokens paramsJson).toNat s1 := by
        simp only [llm_infer]
        rw [if_neg hB, if_neg ht, ← hs1]
      rw [heq]
      exact ⟨rfl, by simp [infer_finish]⟩

/-- C2 witness: an engine whose prompt evaluation fails gives -20 with
nothing written. -/
theorem c2_phase_asymmetry_witness :
    llm_infer failApi (some 0) (some ['h']) none false 10 =
      ⟨-20, none, none, true, 0⟩ :=
  (c2_phase_asymmetry failApi 0 (some ['h']) none 10 (by decide)).1
    (by decide) (by decide)

/-- C3: for every capacity C of at least 2 and every configuration,
after a successful generate call the content written is at most C - 1
bytes and the terminator byte sits at an index of at most C - 1, right
after the content. -/
theorem c3_bounded_output {σ : Type} (O : LlamaApi σ) (ctx : Option σ)
    (prompt paramsJson : Option (List Char)) (outBufNull : Bool) (C : Int)
    (hC : 2 ≤ C)
    (hok : (llm_infer O ctx prompt paramsJson outBufNull C).status = 0) :
    ∃ content n,
      (llm_infer O ctx prompt paramsJson outBufNull C).buf = some content ∧
      (llm_infer O ctx prompt paramsJson outBufNull C).nulIdx = some n ∧
      content.length = n ∧ (n : Int) ≤ C - 1 := by
  cases ctx with
  | none => simp [llm_infer] at hok
  | some s =>
    by_cases hb : outBufNull = true ∨ C ≤ 1
    · have heq : llm_infer O (some s) prompt paramsJson outBufNull C =
          ⟨-30, none, none, false, 0⟩ := by
        simp only [llm_infer]
        rw [if_pos hb]
      rw [heq] at hok
      simp at hok
    · by_cases ht : O.tokenize (prompt.getD []) true true = []
      · have heq : llm_infer O (some s) prompt paramsJson outBufNull C =
            infer_finish O C (resolved_max_tokens paramsJson).toNat s := by
          simp only [llm_infer]
          rw [if_neg hb, if_pos ht]
        rw [heq]
        exact infer_finish_bounds O C _ s hC
      · cases hd : O.decode s (O.tokenize (prompt.getD []) true true) with
        | none =>
          have heq : llm_infer O (some s) prompt paramsJson outBufNull C =
              ⟨-20, none, none, true, 0⟩ := by
            simp only [llm_infer]
            rw [if_neg hb, if_neg ht, hd]
          rw [heq] at hok
          simp at hok
        | some s1 =>
          have heq : llm_infer O (some s) prompt paramsJson outBufNull C =
              infer_finish O C (resolved_max_tokens paramsJson).toNat s1 := by
            simp only [llm_infer]
            rw [if_neg hb, if_neg ht, hd]
          rw [heq]
          exact infer_finish_bounds O C _ s1 hC

/-- C3 witness: a successful three-token run into a capacity-10 buffer. -/
theorem c3_bounded_output_witness :
    ∃ content n,
      (llm_infer demoApi (some 0) (some ['h']) (some mt3_json) false 10).buf =
        some content ∧
      (llm_infer demoApi (some 0) (some ['h']) (some mt3_json) false 10).nulIdx =
        some n ∧
      content.length = n ∧ (n : Int) ≤ 10 - 1 :=
  c3_bounded_output demoApi (some 0) (some ['h']) (some mt3_json) false 10
    (by decide) (by decide)

/-- C7: the claim predicts that every call whose resolved max_tokens is 0
returns status 0; but the prompt-evaluation phase runs before the loop,
so a call whose prompt evaluation fails returns -20 even with a zero
token budget. -/
theorem c7_zero_budget_counterexample :
    resolved_max_tokens (some mt0_json) = 0 ∧
    (llm_infer failApi (some 0) (some ['h']) (some mt0_json) false 10).status =
      -20 ∧
    ((-20 : Int) ≠ 0) := by decide

/-- C7 (amended): for every generate call that passes the precondition
checks and whose prompt evaluation does not fail, a resolved max_tokens
of 0 gives status 0 with empty output, a lone terminator at index 0;
and, in general, the generation loop enters at most max_tokens sampling
iterations. -/
theorem c7_zero_budget {σ : Type} (O : LlamaApi σ) (s : σ)
    (prompt paramsJson : Option (List Char)) (C : Int) (hC : 2 ≤ C) :
    (resolved_max_tokens paramsJson = 0 →
      (O.tokenize (prompt.getD []) true true = [] ∨
        O.decode s (O.tokenize (prompt.getD []) true true) ≠ none) →
      llm_infer O (some s) prompt paramsJson false C =
        ⟨0, some [], some 0, true, 0⟩) ∧
    (∀ (ctx : Option σ) (bn : Bool),
      (llm_infer O ctx prompt paramsJson bn C).steps ≤
        (resolved_max_tokens paramsJson).toNat) := by
  have hB : ¬(false = true ∨ C ≤ 1) := by simp; omega
  constructor
  · intro hmt hor
    have hfin : ∀ sx : σ,
        infer_finish O C (resolved_max_tokens paramsJson).toNat sx =
          ⟨0, some [], some 0, true, 0⟩ := by
      intro sx
      rw [hmt]
      simp [infer_finish, infer_loop]
    by_cases ht : O.tokenize (prompt.getD []) true true = []
    · have heq : llm_infer O (some s) prompt paramsJson false C =
          infer_finish O C (resolved_max_tokens paramsJson).toNat s := by
        simp only [llm_infer]
        rw [if_neg hB, if_pos ht]
      rw [heq, hfin]
    · have hd : O.decode s (O.tokenize (prompt.getD []) true true) ≠ none := by
        rcases hor with h | h
        · exact absurd h ht
        · exact h
      rcases Option.ne_none_iff_exists.mp hd with ⟨s1, hs1⟩
      have heq : llm_infer O (some s) prompt paramsJson false C =
          infer_finish O C (resolved_max_tokens paramsJson).toNat s1 := by
        simp only [llm_infer]
        rw [if_neg hB, if_neg ht, ← hs1]
      rw [heq, hfin]
  · intro ctx bn
    cases ctx with
    | none => simp [llm_infer]
    | some sx =>
      by_cases hb : bn = true ∨ C ≤ 1
      · have heq : llm_infer O (some sx) prompt paramsJson bn C =
            ⟨-30, none, none, false, 0⟩ := by
          simp only [llm_infer]
          rw [if_pos hb]
        rw [heq]
        exact Nat.zero_le _
      · by_cases ht : O.tokenize (prompt.getD []) true true = []
        · have heq : llm_infer O (some sx) prompt paramsJson bn C =
              infer_finish O C (resolved_max_tokens paramsJson).toNat sx := by
            simp only [llm_infer]
            rw [if_neg hb, if_pos ht]
          rw [heq]
          exact infer_loop_steps_le O C _ sx []
        · cases hd : O.decode sx (O.tokenize (prompt.getD []) true true) with
          | none =>
            have heq : llm_infer O (some sx) prompt paramsJson bn C =
                ⟨-20, none, none, true, 0⟩ := by
              simp only [llm_infer]
              rw [if_neg hb, if_neg ht, hd]
            rw [heq]
            exact Nat.zero_le _
          | some s1 =>
            have heq : llm_infer O (some sx) prompt paramsJson bn C =
                infer_finish O C (resolved_max_tokens paramsJson).toNat s1 := by
              simp only [llm_infer]
              rw [if_neg hb, if_neg ht, hd]
            rw [heq]
            exact infer_loop_steps_le O C _ s1 []

/-- C7 witness: the amended statement on the demo engine with a
max_tokens of 0. -/
theorem c7_zero_budget_witness :
    llm_infer demoApi (some 0) (some ['h']) (some mt0_json) false 10 =
      ⟨0, some [], some 0, true, 0⟩ :=
  (c7_zero_budget demoApi 0 (some ['h']) (some mt0_json) 10 (by decide)).1
    (by decide) (Or.inr (by decide))

/-- C8: a call to init while an Engine exists returns 0 and leaves the
whole bridge state unchanged, performing no allocation; and after any
init that returns 0 a context is installed, so a further init is again
a no-op returning 0: two successive calls leave exactly one live
Engine. -/
theorem c8_idempotent_init {μ κ : Type} (W : LlamaWorld μ κ)
    (st : BridgeState μ κ) (mp mp2 : Option (List Char))
    (a b c d a2 b2 c2 d2 : Int) :
    (st.ctx.isSome = true → llm_init W st mp a b c d = (0, st)) ∧
    ((llm_init W st mp a b c d).1 = 0 →
      (llm_init W st mp a b c d).2.ctx.isSome = true ∧
      llm_init W (llm_init W st mp a b c d).2 mp2 a2 b2 c2 d2 =
        (0, (llm_init W st mp a b c d).2)) := by
  constructor
  · exact llm_init_noop W st mp a b c d
  · intro h0
    rcases llm_init_zero_ctx W st mp a b c d with ⟨_, hctx⟩ | hne
    · exact ⟨hctx, llm_init_noop W _ mp2 a2 b2 c2 d2 hctx⟩
    · exact absurd h0 hne

/-- C8 witness: a second init on a state holding an Engine. -/
theorem c8_idempotent_init_witness :
    llm_init trivWorld engineSt (some ['m']) 1 2 3 4 = (0, engineSt) :=
  (c8_idempotent_init trivWorld engineSt (some ['m']) none 1 2 3 4 0 0 0 0).1 rfl

/-- C9: the model pointer and the context pointer are both set or both
null at process start, and every exported call (init, generate, dispose)
preserves that pairing, so no reachable bridge state holds a model
without a context or a context without a model. -/
theorem c9_engine_pairing {μ κ : Type} (W : LlamaWorld μ κ) :
    engineInv (initial_bridge μ κ) ∧
    ∀ (call : BridgeCall) (st : BridgeState μ κ),
      engineInv st → engineInv (bridgeStep W call st) := by
  refine ⟨rfl, ?_⟩
  intro call st h
  cases call with
  | infer p j bn sz => exact h
  | dispose => rfl
  | init mp a b c d =>
    show engineInv (llm_init W st mp a b c d).2
    by_cases hc : st.ctx.isSome = true
    · rw [llm_init_noop W st mp a b c d hc]
      exact h
    · have hcf : st.ctx.isSome = false := by simpa using hc
      by_cases hp : mp = none ∨ mp = some []
      · have heq : llm_init W st mp a b c d = (-3, st) := by
          simp [llm_init, hc, hp]
        rw [heq]
        exact h
      · cases hm : W.loadModel (mp.getD []) ⟨b, true, false⟩ with
        | none =>
          have heq : llm_init W st mp a b c d =
              (-1, { st with model := none }) := by
            simp only [llm_init, hm]
            rw [if_neg hc, if_neg hp]
          rw [heq]
          simp [engineInv, hcf]
        | some m =>
          cases hn : W.initCtx m ⟨if a > 0 then a else 2048, 256,
              if c > 0 then c else 4⟩ with
          | none =>
            have heq : llm_init W st mp a b c d =
                (-2, { st with model := none, threads := (if c > 0 then c else 4) }) := by
              simp only [llm_init, hm, hn]
              rw [if_neg hc, if_neg hp]
            rw [heq]
            simp [engineInv, hcf]
          | some cx =>
            have heq : llm_init W st mp a b c d =
                (0, ⟨some m, some cx, (if c > 0 then c else 4)⟩) := by
              simp only [llm_init, hm, hn]
              rw [if_neg hc, if_neg hp]
            rw [heq]
            rfl

/-- C9 witness: the invariant after a dispose call on a state holding an
Engine. -/
theorem c9_engine_pairing_witness :
    engineInv (bridgeStep trivWorld BridgeCall.dispose engineSt) :=
  (c9_engine_pairing trivWorld).2 BridgeCall.dispose engineSt rfl

/-- C10: a null prompt is treated exactly like the empty string, the
two calls being equal outcome for outcome; and when tokenization of the
empty text yields no tokens, the prompt-evaluation step is skipped
entirely, so the call succeeds with status 0 whatever the decode oracle
would have answered. -/
theorem c10_null_prompt {σ : Type} (O : LlamaApi σ) (s : σ)
    (paramsJson : Option (List Char)) (bn : Bool) (C : Int) :
    llm_infer O (some s) none paramsJson bn C =
      llm_infer O (some s) (some []) paramsJson bn C ∧
    (2 ≤ C → bn = false → O.tokenize [] true true = [] →
      (llm_infer O (some s) none paramsJson bn C).status = 0) := by
  constructor
  · rfl
  · intro hC hbn htok
    subst hbn
    have hB : ¬(false = true ∨ C ≤ 1) := by simp; omega
    have heq : llm_infer O (some s) none paramsJson false C =
        infer_finish O C (resolved_max_tokens paramsJson).toNat s := by
      simp only [llm_infer]
      rw [if_neg hB]
      simp only [Option.getD_none]
      rw [if_pos htok]
    rw [heq]
    rfl

/-- C10 witness: a null prompt on the demo engine, whose tokenizer maps
the empty text to no tokens. -/
theorem c10_null_prompt_witness :
    (llm_infer demoApi (some 5) none none false 4).status = 0 :=
  (c10_null_prompt demoApi 5 none false 4).2 (by decide) rfl (by decide)
